import Mathlib

/-!
Shallow embedding of the JVM-energy statistical analysis scripts:
* `scripts/energy_analysis.py` (class `EnergyTimeAnalysis`): CSV loading with
  frequency tagging, grouped aggregation by (algorithm, CPU frequency),
  EDP ranking and optimal-frequency selection.
* `energy_analysis.py` (class `SimpleEnergyAnalysis`): per-algorithm
  mean/std/bootstrap-CI summary.

Numbers are modelled as exact rationals.  The external statistical library
calls (`scipy.stats.bootstrap`, `scipy.stats.pearsonr`, square roots, and the
`numpy` random generator) are kept abstract as parameters of a `Lib`
structure: the development is parametric in them, and every theorem holds for
every instantiation.  IEEE-754 division by zero, which yields a non-finite
float (nan or inf) instead of raising, is modelled by `pydiv` returning
`none` on a zero denominator.
-/

namespace JvmEnergy

/-- The `cpu_frequency_mhz` tag of a loaded row: either a known frequency in
MHz or the sentinel string `'Não identificado'` (source line 70/104). -/
inductive Freq where
  | mhz (n : Nat)
  | unidentified
deriving DecidableEq, Repr

def Freq.known? : Freq → Option Nat
  | .mhz n => some n
  | .unidentified => none

/-- One row of the in-memory dataframe after loading: columns `algo`,
`joules`, `time_ms`, plus the added `source_file` and `cpu_frequency_mhz`. -/
structure Row where
  algo : String
  joules : ℚ
  time_ms : ℚ
  freq : Freq
  source_file : String
deriving DecidableEq, Repr

/-- A raw input row of one CSV file.  The `freq_mhz` field is only meaningful
when the file's header (`CsvFile.cols`) contains the column `freq_mhz`. -/
structure InRow where
  algo : String
  joules : ℚ
  time_ms : ℚ
  freq_mhz : Nat
deriving DecidableEq, Repr

/-- One CSV file: its (base) name, its header columns, and its rows. -/
structure CsvFile where
  name : String
  cols : List String
  rows : List InRow
deriving DecidableEq, Repr

/-! ### Frequency extraction from the file name (source lines 38-44)

`re.search(r'(\d+)mhz', filename.lower())`: the leftmost position where a
(maximal) digit run is immediately followed by the literal `mhz`; the
captured digits are converted with `int`. -/

def digitsVal (ds : List Char) : Nat :=
  ds.foldl (fun a c => 10 * a + (c.toNat - '0'.toNat)) 0

/-- Try to match `(\d+)mhz` starting exactly at the head of `l`. -/
def matchMhzAt (l : List Char) : Option Nat :=
  let ds := l.takeWhile Char.isDigit
  if ds.isEmpty then none
  else
    match l.dropWhile Char.isDigit with
    | 'm' :: 'h' :: 'z' :: _ => some (digitsVal ds)
    | _ => none

/-- Scan left to right for the first position where `(\d+)mhz` matches. -/
def searchMhz : List Char → Option Nat
  | [] => none
  | c :: cs =>
    match matchMhzAt (c :: cs) with
    | some n => some n
    | none => searchMhz cs

/-- `filename.lower()` followed by the regex search; Python's `str.lower`
lowercases character-wise. -/
def extract_frequency_from_filename (filename : String) : Option Nat :=
  searchMhz (filename.toList.map Char.toLower)

/-! ### Loading (source lines 46-132) -/

/-- Tag the rows of one CSV file (source lines 86-107): the `freq_mhz` data
column takes precedence; otherwise the frequency is parsed from the file
name; otherwise the sentinel is used. -/
def loadFile (file : CsvFile) : List Row :=
  file.rows.map fun r =>
    { algo := r.algo
      joules := r.joules
      time_ms := r.time_ms
      source_file := file.name
      freq :=
        if "freq_mhz" ∈ file.cols then Freq.mhz r.freq_mhz
        else
          match extract_frequency_from_filename file.name with
          | some n => Freq.mhz n
          | none => Freq.unidentified }

def requiredColumns : List String := ["algo", "joules", "time_ms"]

/-- Columns of the concatenated dataframe: the union of the files' headers
plus the two columns added during loading. -/
def combinedCols (files : List CsvFile) : List String :=
  (files.flatMap CsvFile.cols).dedup ++ ["source_file", "cpu_frequency_mhz"]

def sortedStr (l : List String) : List String :=
  List.insertionSort (fun a b => a ≤ b) l

def sortedNat (l : List Nat) : List Nat :=
  List.insertionSort (fun a b => a ≤ b) l

/-- `load_data` for the multi-file branch (source lines 72-132): the matched
files are processed in sorted order and concatenated; afterwards the `algo`
column is accessed (line 115, a `KeyError` if absent) and the required
columns are checked (lines 125-129). -/
def sortedFiles (files : List CsvFile) : List CsvFile :=
  List.insertionSort (fun u v : CsvFile => u.name ≤ v.name) files

def load_data (files : List CsvFile) : Except String (List String × List Row) :=
  if files.isEmpty then
    Except.error "Nenhum arquivo CSV encontrado"
  else
    if "algo" ∈ combinedCols (sortedFiles files) then
      if (requiredColumns.filter fun c =>
          !((combinedCols (sortedFiles files)).contains c)).isEmpty then
        Except.ok (combinedCols (sortedFiles files),
          (sortedFiles files).flatMap loadFile)
      else Except.error "Colunas obrigatórias não encontradas"
    else
      Except.error "Erro ao carregar dados"

/-- `len(self.data)` (source line 114 / report line 293). -/
def total_records (d : List Row) : Nat := d.length

/-! ### Statistics (source lines 134-242) -/

/-- `np.mean`. -/
def mean (xs : List ℚ) : ℚ := xs.sum / (xs.length : ℚ)

/-- `np.std(xs, ddof=1)` squared: the Bessel-corrected sample variance. -/
def sampleVar (xs : List ℚ) : ℚ :=
  (xs.map fun x => (x - mean xs) ^ 2).sum / ((xs.length : ℚ) - 1)

/-- Float division as the source performs it on `np.float64` values: a zero
denominator does not raise but produces a non-finite value (nan or inf),
modelled as `none`. -/
def pydiv (a b : ℚ) : Option ℚ := if b = 0 then none else some (a / b)

/-- The external statistical collaborators, abstract: a random-generator
state type with `np.random.default_rng`, `scipy.stats.bootstrap` (threading
the generator state), `scipy.stats.pearsonr` (coefficient and p-value), and
the square root used by `np.std`. -/
structure Lib where
  State : Type
  mkRng : Nat → State
  bootstrap : State → List ℚ → (ℚ × ℚ) × State
  pearson : List ℚ → List ℚ → ℚ × ℚ
  sqrtQ : ℚ → ℚ

/-- A concrete instantiation of the external collaborators, used to evaluate
the embedding on concrete inputs. -/
def trivialLib : Lib where
  State := Unit
  mkRng := fun _ => ()
  bootstrap := fun s xs => ((mean xs, mean xs), s)
  pearson := fun _ _ => (0, 0)
  sqrtQ := id

deriving instance DecidableEq for Except

/-- Per-group statistics for one of energy / time / EDP. -/
structure Metric where
  mean : ℚ
  std : Option ℚ
  ci_lower : Option ℚ
  ci_upper : Option ℚ
deriving DecidableEq, Repr, Inhabited

/-- The per-(algorithm, frequency) result record (source lines 173-197 and
218-242). -/
structure GroupStats where
  n_samples : Nat
  energy : Metric
  time : Metric
  edp : Metric
  corr_value : Option ℚ
  corr_p : Option ℚ
deriving DecidableEq, Repr, Inhabited

/-- The body of the per-group computation (source lines 154-242).  The
`entropy` parameter stands for the ambient randomness an unseeded
`np.random.default_rng()` would consume; the source seeds with the literal
`42` (line 208), so it is never consulted. -/
def groupStats (lib : Lib) (entropy : Nat) (energy_data time_data : List ℚ) :
    GroupStats :=
  let n_samples := energy_data.length
  let energy_mean := mean energy_data
  let time_mean := mean time_data
  let edp_data := List.zipWith (fun e t => e * t) energy_data time_data
  let edp_mean := mean edp_data
  if n_samples = 1 then
    { n_samples
      energy := ⟨energy_mean, none, none, none⟩
      time := ⟨time_mean, none, none, none⟩
      edp := ⟨edp_mean, none, none, none⟩
      corr_value := none
      corr_p := none }
  else
    let energy_std := lib.sqrtQ (sampleVar energy_data)
    let time_std := lib.sqrtQ (sampleVar time_data)
    let edp_std := lib.sqrtQ (sampleVar edp_data)
    let corr := lib.pearson energy_data time_data
    let rng := lib.mkRng 42
    let eb := lib.bootstrap rng energy_data
    let tb := lib.bootstrap eb.2 time_data
    let db := lib.bootstrap tb.2 edp_data
    { n_samples
      energy := ⟨energy_mean, some energy_std, some eb.1.1, some eb.1.2⟩
      time := ⟨time_mean, some time_std, some tb.1.1, some tb.1.2⟩
      edp := ⟨edp_mean, some edp_std, some db.1.1, some db.1.2⟩
      corr_value := some corr.1
      corr_p := some corr.2 }

def algosOf (d : List Row) : List String :=
  sortedStr (d.map Row.algo).dedup

def knownFreqsOf (d : List Row) : List Nat :=
  sortedNat (d.filterMap fun r => r.freq.known?).dedup

/-- The subset for one (algorithm, frequency) pair (source line 149). -/
def subsetOf (d : List Row) (a : String) (f : Nat) : List Row :=
  d.filter fun r => decide (r.algo = a ∧ r.freq = Freq.mhz f)

def groupOf (lib : Lib) (entropy : Nat) (d : List Row) (a : String) (f : Nat) :
    Option (Nat × GroupStats) :=
  let subset := subsetOf d a f
  if subset.isEmpty then none
  else some (f, groupStats lib entropy (subset.map Row.joules) (subset.map Row.time_ms))

/-- `EnergyTimeAnalysis.analyze` (source lines 134-242): algorithms in
ascending order, known frequencies in ascending order, empty subsets
skipped.  The association lists model the Python dicts, whose iteration
order is insertion order. -/
def analyze (lib : Lib) (entropy : Nat) (d : List Row) :
    List (String × List (Nat × GroupStats)) :=
  (algosOf d).map fun a => (a, (knownFreqsOf d).filterMap (groupOf lib entropy d a))

/-- `results[algo][freq]` as a partial lookup. -/
def resultsLookup (res : List (String × List (Nat × GroupStats)))
    (a : String) (f : Nat) : Option GroupStats :=
  ((res.find? fun p => p.1 == a).bind fun p => p.2.find? fun q => q.1 == f).map
    Prod.snd

/-! ### EDP ranking and best/worst per algorithm (source lines 398-452) -/

structure RankEntry where
  algorithm : String
  frequency : Nat
  edp : ℚ
  energy : ℚ
  time : ℚ
deriving DecidableEq, Repr

/-- The comparison used by `edp_ranking.sort(key=lambda x: x['edp'])`. -/
def rankLE (x y : RankEntry) : Prop := x.edp ≤ y.edp

instance : DecidableRel rankLE := fun x y =>
  inferInstanceAs (Decidable (x.edp ≤ y.edp))

instance : IsTotal RankEntry rankLE := ⟨fun a b => le_total a.edp b.edp⟩

instance : IsTrans RankEntry rankLE := ⟨fun _ _ _ h h' => le_trans h h'⟩

/-- The list built by the nested loops of source lines 407-416, in dict
iteration order. -/
def edpRankingInput (res : List (String × List (Nat × GroupStats))) :
    List RankEntry :=
  res.flatMap fun p =>
    p.2.map fun q =>
      { algorithm := p.1
        frequency := q.1
        edp := q.2.edp.mean
        energy := q.2.energy.mean
        time := q.2.time.mean }

/-- `analyze_energy_efficiency_edp` ranking (source lines 407-419):
Python's `list.sort` is a stable ascending sort, modelled by the stable
`insertionSort`. -/
def analyze_energy_efficiency_edp (res : List (String × List (Nat × GroupStats))) :
    List RankEntry :=
  List.insertionSort rankLE (edpRankingInput res)

/-- `results[algo][freq]` where the key is known to be present; the model
uses a default on a missing key. -/
def statsAt (fs : List (Nat × GroupStats)) (f : Nat) : GroupStats :=
  ((fs.find? fun q => q.1 == f).map Prod.snd).getD default

/-- Python's `min(l, key=lambda x: x[1])` over `acc :: xs`: first minimum. -/
def minBySnd (acc : Nat × ℚ) (xs : List (Nat × ℚ)) : Nat × ℚ :=
  xs.foldl (fun a p => if p.2 < a.2 then p else a) acc

/-- Python's `max(l, key=lambda x: x[1])` over `acc :: xs`: first maximum. -/
def maxBySnd (acc : Nat × ℚ) (xs : List (Nat × ℚ)) : Nat × ℚ :=
  xs.foldl (fun a p => if a.2 < p.2 then p else a) acc

/-- The best/worst record printed per algorithm (source lines 435-449). -/
structure BestWorst where
  best_freq : Nat
  best_edp : ℚ
  worst_freq : Nat
  worst_edp : ℚ
  improvement : Option ℚ
deriving DecidableEq, Repr

/-- Source lines 435-449 for one algorithm: `min`/`max` over the (frequency,
EDP-mean) pairs in ascending-frequency order, and the improvement
percentage.  `none` models the `ValueError` `min` raises on an empty
sequence. -/
def edp_best_worst (fs : List (Nat × GroupStats)) : Option BestWorst :=
  let frequencies := sortedNat (fs.map Prod.fst)
  if frequencies.isEmpty then none
  else
    let edps := frequencies.map fun f => (f, (statsAt fs f).edp.mean)
    let best := minBySnd (edps.headD (0, 0)) edps.tail
    let worst := maxBySnd (edps.headD (0, 0)) edps.tail
    some
      { best_freq := best.1
        best_edp := best.2
        worst_freq := worst.1
        worst_edp := worst.2
        improvement := (pydiv (worst.2 - best.2) worst.2).map fun q => q * 100 }

/-! ### Optimal frequency (source lines 454-493) -/

structure OptEntry where
  optimal_freq : Nat
  min_energy : ℚ
  max_freq : Nat
  max_freq_energy : ℚ
  energy_savings : Option ℚ
deriving DecidableEq, Repr

/-- Python's `min` over a list of rationals (`0` on the empty list, on which
the source would raise). -/
def listMin : List ℚ → ℚ
  | [] => 0
  | x :: xs => xs.foldl (fun a b => if b < a then b else a) x

/-- `analyze_optimal_frequency` for one algorithm (source lines 463-483):
the first index attaining the minimum mean energy over the
ascending-frequency list, and the saving relative to the highest
frequency. -/
def analyze_optimal_frequency_algo (fs : List (Nat × GroupStats)) : Option OptEntry :=
  let frequencies := sortedNat (fs.map Prod.fst)
  if frequencies.isEmpty then none
  else
    let energies := frequencies.map fun f => (statsAt fs f).energy.mean
    let min_energy := listMin energies
    let min_energy_idx := energies.findIdx fun e => e == min_energy
    let optimal_freq := frequencies.getD min_energy_idx 0
    let max_freq := frequencies.getLastD 0
    let max_freq_energy := (statsAt fs max_freq).energy.mean
    some
      { optimal_freq := optimal_freq
        min_energy := min_energy
        max_freq := max_freq
        max_freq_energy := max_freq_energy
        energy_savings := (pydiv (max_freq_energy - min_energy) max_freq_energy).map fun q => q * 100 }

/-- `analyze_optimal_frequency` over all algorithms (source line 463). -/
def analyze_optimal_frequency (res : List (String × List (Nat × GroupStats))) :
    List (String × Option OptEntry) :=
  res.map fun p => (p.1, analyze_optimal_frequency_algo p.2)

/-! ### The simplified script `energy_analysis.py` (`SimpleEnergyAnalysis`) -/

structure SRow where
  algo : String
  joules : ℚ
deriving DecidableEq, Repr

structure SimpleStats where
  mean : ℚ
  std : Option ℚ
  ci_lower : ℚ
  ci_upper : ℚ
  margin_error : ℚ
  n_samples : Nat
deriving DecidableEq, Repr

/-- `SimpleEnergyAnalysis.analyze` (simple script lines 43-87).  `np.std`
with `ddof=1` on a singleton divides by zero, producing nan: the variance is
therefore computed with `pydiv`.  The bootstrap generator is freshly seeded
with `42` per algorithm (line 60); `entropy` is again never consulted. -/
def simple_analyze (lib : Lib) (entropy : Nat) (d : List SRow) :
    List (String × SimpleStats) :=
  (sortedStr (d.map SRow.algo).dedup).map fun a =>
    let xs := (d.filter fun r => r.algo == a).map SRow.joules
    let rng := lib.mkRng 42
    let bs := lib.bootstrap rng xs
    (a,
      { mean := mean xs
        std := (pydiv ((xs.map fun x => (x - mean xs) ^ 2).sum) ((xs.length : ℚ) - 1)).map lib.sqrtQ
        ci_lower := bs.1.1
        ci_upper := bs.1.2
        margin_error := (bs.1.2 - bs.1.1) / 2
        n_samples := xs.length })

/-! ### The overall run (source lines 663-708) -/

/-- The output artifacts `run_analysis` produces, in order (source lines
684-694). -/
inductive Output where
  | individual_chart (algo : String)
  | consolidated_chart
  | text_report
  | consolidated_csv
deriving DecidableEq, Repr

/-- `run_analysis` after a successful load: the aggregation and the two
derived analyses run first; output files are produced afterwards. -/
def run_analysis (lib : Lib) (entropy : Nat) (d : List Row) : List Output :=
  let results := analyze lib entropy d
  let _ranking := analyze_energy_efficiency_edp results
  let _optimal := analyze_optimal_frequency results
  (results.map fun p => Output.individual_chart p.1) ++
    [Output.consolidated_chart, Output.text_report, Output.consolidated_csv]

/-- The whole program on resolved input files: loading (with validation)
followed by `run_analysis`; a load failure aborts before any output. -/
def main_run (lib : Lib) (entropy : Nat) (files : List CsvFile) :
    Except String (List Output) :=
  (load_data files).map fun d => run_analysis lib entropy d.2

/-! ### Concrete example data used to evaluate the embedding -/

/-- Two correlated observations of one group: energies `[1, 2]`, times
`[1, 2]`. -/
def c1Rows : List Row :=
  [⟨"a", 1, 1, Freq.mhz 500, "runs-500mhz.csv"⟩,
   ⟨"a", 2, 2, Freq.mhz 500, "runs-500mhz.csv"⟩]

/-- A dataset whose only group is a singleton. -/
def c2Rows : List Row := [⟨"a", 1, 2, Freq.mhz 500, "runs-500mhz.csv"⟩]

/-- One algorithm at two frequencies; the lower frequency uses less energy. -/
def c4Rows : List Row :=
  [⟨"a", 1, 1, Freq.mhz 500, "s"⟩, ⟨"a", 2, 1, Freq.mhz 1000, "s"⟩]

/-- The grouped statistics `analyze` computes for `c4Rows`. -/
def c4Fs : List (Nat × GroupStats) :=
  [(500, groupStats trivialLib 0 [1] [1]), (1000, groupStats trivialLib 0 [2] [1])]

/-- One algorithm at a single frequency with an all-zero energy column. -/
def c5Rows : List Row := [⟨"a", 0, 1, Freq.mhz 500, "s"⟩]

/-- A file with a `freq_mhz` data column whose value disagrees with the
frequency in the file name. -/
def c8FileCol : CsvFile :=
  ⟨"run-500mhz.csv", ["algo", "joules", "time_ms", "freq_mhz"], [⟨"a", 1, 1, 900⟩]⟩

/-- A file without the data column whose name matches `(\d+)mhz`
case-insensitively. -/
def c8FileName : CsvFile :=
  ⟨"RUN-1500MHZ.csv", ["algo", "joules", "time_ms"], [⟨"a", 1, 1, 0⟩]⟩

/-- A file with neither the data column nor a matching name. -/
def c8FileNone : CsvFile :=
  ⟨"results.csv", ["algo", "joules", "time_ms"], [⟨"a", 1, 1, 0⟩]⟩

/-- A file with all required columns but no data rows. -/
def c9EmptyFile : CsvFile := ⟨"bench-500mhz.csv", ["algo", "joules", "time_ms"], []⟩

/-- A file missing the required `joules` column. -/
def c9BadFile : CsvFile := ⟨"bench.csv", ["algo", "time_ms"], [⟨"a", 1, 1, 0⟩]⟩

/-- One algorithm at two frequencies with all-zero energy readings. -/
def c10Rows : List Row :=
  [⟨"a", 0, 1, Freq.mhz 500, "s"⟩, ⟨"a", 0, 2, Freq.mhz 1000, "s"⟩]

/-- The grouped statistics `analyze` computes for `c10Rows`. -/
def c10Fs : List (Nat × GroupStats) :=
  [(500, groupStats trivialLib 0 [0] [1]), (1000, groupStats trivialLib 0 [0] [2])]

/-- One positive-energy singleton group, for exercising the guarded
percentages. -/
def c10PosFs : List (Nat × GroupStats) := [(500, groupStats trivialLib 0 [1] [1])]

/-- An algorithm tested at a single frequency with positive energy. -/
def c5SingleRows : List Row := [⟨"a", 1, 2, Freq.mhz 500, "s"⟩]

/-- The best/worst record for the positive singleton group `c10PosFs`. -/
def c10BW : BestWorst :=
  { best_freq := 500, best_edp := 1, worst_freq := 500, worst_edp := 1,
    improvement := some 0 }

/-- The optimal-frequency record for the positive singleton group
`c10PosFs`. -/
def c10Opt : OptEntry :=
  { optimal_freq := 500, min_energy := 1, max_freq := 500, max_freq_energy := 1,
    energy_savings := some 0 }

/-! ## Supporting lemmas -/

theorem zipWith_map_same {α β γ δ : Type*} (f : β → γ → δ) (g : α → β) (h : α → γ) :
    ∀ l : List α, List.zipWith f (l.map g) (l.map h) = l.map fun x => f (g x) (h x)
  | [] => rfl
  | x :: xs => by
    simp only [List.map_cons, List.zipWith_cons_cons, zipWith_map_same f g h xs]

theorem find?_map_eq {κ : Type*} {β : Type*} [BEq κ] [LawfulBEq κ] (g : κ → β) {a : κ} :
    ∀ l : List κ, l.Nodup → a ∈ l →
      (l.map fun x => (x, g x)).find? (fun p => p.1 == a) = some (a, g a) := by
  intro l
  induction l with
  | nil => intro _ h; simp at h
  | cons x xs ih =>
    intro hnd hm
    rcases List.mem_cons.mp hm with rfl | hm'
    · rw [List.map_cons, List.find?_cons_of_pos _ (by simp)]
    · have hx : x ≠ a := by
        rintro rfl
        exact (List.nodup_cons.mp hnd).1 hm'
      rw [List.map_cons, List.find?_cons_of_neg _ (by simp [hx]),
        ih (List.nodup_cons.mp hnd).2 hm']

theorem find?_filterMap_eq {β : Type*} (step : Nat → Option (Nat × β))
    (hstep : ∀ x y, step x = some y → y.1 = x) {f : Nat} {b : β} :
    ∀ l : List Nat, l.Nodup → f ∈ l → step f = some (f, b) →
      (l.filterMap step).find? (fun q => q.1 == f) = some (f, b) := by
  intro l
  induction l with
  | nil => intro _ h _; simp at h
  | cons x xs ih =>
    intro hnd hm hsf
    rcases List.mem_cons.mp hm with rfl | hm'
    · rw [List.filterMap_cons_some hsf, List.find?_cons_of_pos _ (by simp)]
    · have hx : x ≠ f := by
        rintro rfl
        exact (List.nodup_cons.mp hnd).1 hm'
      cases hsx : step x with
      | none =>
        rw [List.filterMap_cons_none hsx]
        exact ih (List.nodup_cons.mp hnd).2 hm' hsf
      | some y =>
        have hy : y.1 = x := hstep x y hsx
        rw [List.filterMap_cons_some hsx,
          List.find?_cons_of_neg _ (by simp [hy, hx]),
          ih (List.nodup_cons.mp hnd).2 hm' hsf]

theorem find?_keys_eq {β : Type*} :
    ∀ fs : List (Nat × β), (fs.map Prod.fst).Nodup →
      ∀ {f : Nat} {b : β}, (f, b) ∈ fs → fs.find? (fun q => q.1 == f) = some (f, b) := by
  intro fs
  induction fs with
  | nil => intro _ _ _ h; simp at h
  | cons p t ih =>
    intro hnd f b hm
    rw [List.map_cons, List.nodup_cons] at hnd
    rcases List.mem_cons.mp hm with rfl | hm'
    · exact List.find?_cons_of_pos _ (by simp)
    · have hp : p.1 ≠ f := by
        intro h
        exact hnd.1 (by rw [h]; simpa using List.mem_map_of_mem Prod.fst hm')
      rw [List.find?_cons_of_neg _ (by simp [hp]), ih hnd.2 hm']

theorem statsAt_eq {fs : List (Nat × GroupStats)} (hnd : (fs.map Prod.fst).Nodup)
    {f : Nat} {b : GroupStats} (hm : (f, b) ∈ fs) : statsAt fs f = b := by
  unfold statsAt
  rw [find?_keys_eq fs hnd hm]
  rfl

theorem foldl_min_le_init :
    ∀ (xs : List ℚ) (acc : ℚ), xs.foldl (fun a b => if b < a then b else a) acc ≤ acc
  | [], _ => le_refl _
  | x :: xs, acc => by
    rw [List.foldl_cons]
    refine le_trans (foldl_min_le_init xs _) ?_
    by_cases h : x < acc
    · simpa [h] using le_of_lt h
    · simp [h]

theorem foldl_min_le_mem :
    ∀ (xs : List ℚ) (acc y : ℚ), y ∈ xs →
      xs.foldl (fun a b => if b < a then b else a) acc ≤ y
  | [], _, _, h => by simp at h
  | x :: xs, acc, y, h => by
    rw [List.foldl_cons]
    rcases List.mem_cons.mp h with rfl | h'
    · refine le_trans (foldl_min_le_init xs _) ?_
      by_cases hxa : y < acc
      · simp [hxa]
      · simpa [hxa] using le_of_not_lt hxa
    · exact foldl_min_le_mem xs _ y h'

theorem foldl_min_mem :
    ∀ (xs : List ℚ) (acc : ℚ),
      xs.foldl (fun a b => if b < a then b else a) acc = acc ∨
        xs.foldl (fun a b => if b < a then b else a) acc ∈ xs
  | [], _ => Or.inl rfl
  | x :: xs, acc => by
    rw [List.foldl_cons]
    rcases foldl_min_mem xs (if x < acc then x else acc) with h | h
    · rw [h]
      by_cases hx : x < acc
      · exact Or.inr (by simp [hx])
      · exact Or.inl (by simp [hx])
    · exact Or.inr (List.mem_cons_of_mem _ h)

theorem listMin_le {xs : List ℚ} (h : xs ≠ []) : ∀ y ∈ xs, listMin xs ≤ y := by
  cases xs with
  | nil => exact absurd rfl h
  | cons x t =>
    intro y hy
    show t.foldl (fun a b => if b < a then b else a) x ≤ y
    rcases List.mem_cons.mp hy with rfl | hy'
    · exact foldl_min_le_init t y
    · exact foldl_min_le_mem t x y hy'

theorem listMin_mem {xs : List ℚ} (h : xs ≠ []) : listMin xs ∈ xs := by
  cases xs with
  | nil => exact absurd rfl h
  | cons x t =>
    show t.foldl (fun a b => if b < a then b else a) x ∈ x :: t
    rcases foldl_min_mem t x with h' | h'
    · rw [h']
      exact List.mem_cons_self _ _
    · exact List.mem_cons_of_mem _ h'

theorem pydiv_map_isSome {a b : ℚ} (g : ℚ → ℚ) (h : b ≠ 0) :
    ((pydiv a b).map g).isSome := by
  simp [pydiv, h]

theorem pairwise_filter_of {α : Type*} {R : α → α → Prop} {p : α → Bool}
    (hp : ∀ x y, p x = true → p y = true → R x y) :
    ∀ l : List α, (l.filter p).Pairwise R := by
  intro l
  induction l with
  | nil => simp
  | cons x xs ih =>
    by_cases hx : p x
    · rw [List.filter_cons_of_pos hx]
      exact List.Pairwise.cons (fun y hy => hp x y hx (List.of_mem_filter hy)) ih
    · rw [List.filter_cons_of_neg (by simpa using hx)]
      exact ih

/-! ## Lemmas about the aggregation pipeline -/

theorem mem_algosOf {d : List Row} {a : String} :
    a ∈ algosOf d ↔ ∃ r ∈ d, r.algo = a := by
  unfold algosOf sortedStr
  rw [List.mem_insertionSort, List.mem_dedup, List.mem_map]

theorem known?_eq_some {x : Freq} {n : Nat} : x.known? = some n ↔ x = Freq.mhz n := by
  cases x <;> simp [Freq.known?]

theorem algosOf_nodup (d : List Row) : (algosOf d).Nodup := by
  unfold algosOf sortedStr
  exact (List.perm_insertionSort _ _).nodup_iff.mpr (List.nodup_dedup _)

theorem mem_knownFreqsOf {d : List Row} {f : Nat} :
    f ∈ knownFreqsOf d ↔ ∃ r ∈ d, r.freq = Freq.mhz f := by
  unfold knownFreqsOf sortedNat
  rw [List.mem_insertionSort, List.mem_dedup, List.mem_filterMap]
  simp only [known?_eq_some]

theorem knownFreqsOf_nodup (d : List Row) : (knownFreqsOf d).Nodup := by
  unfold knownFreqsOf sortedNat
  exact (List.perm_insertionSort _ _).nodup_iff.mpr (List.nodup_dedup _)

theorem knownFreqsOf_sorted (d : List Row) :
    (knownFreqsOf d).Pairwise (fun a b : Nat => a ≤ b) := by
  unfold knownFreqsOf sortedNat
  exact List.sorted_insertionSort _ _

theorem knownFreqsOf_pairwise_lt (d : List Row) :
    (knownFreqsOf d).Pairwise (fun a b : Nat => a < b) := by
  have h := (knownFreqsOf_sorted d).and (knownFreqsOf_nodup d)
  exact h.imp fun hp => lt_of_le_of_ne hp.1 hp.2

theorem groupOf_key {lib : Lib} {e : Nat} {d : List Row} {a : String} {f : Nat}
    {y : Nat × GroupStats} (h : groupOf lib e d a f = some y) : y.1 = f := by
  simp only [groupOf] at h
  by_cases hs : (subsetOf d a f).isEmpty
  · rw [if_pos hs] at h
    cases h
  · rw [if_neg hs] at h
    cases h
    rfl

theorem groupOf_eq_some {lib : Lib} {e : Nat} {d : List Row} {a : String} {f : Nat}
    (h : subsetOf d a f ≠ []) :
    groupOf lib e d a f =
      some (f, groupStats lib e ((subsetOf d a f).map Row.joules)
        ((subsetOf d a f).map Row.time_ms)) := by
  unfold groupOf
  rw [if_neg (by simpa using h)]

theorem analyze_inner {lib : Lib} {e : Nat} {d : List Row} {a : String}
    {fs : List (Nat × GroupStats)} (h : (a, fs) ∈ analyze lib e d) :
    fs = (knownFreqsOf d).filterMap (groupOf lib e d a) := by
  unfold analyze at h
  obtain ⟨a', _, heq⟩ := List.mem_map.mp h
  obtain ⟨rfl, rfl⟩ := Prod.mk.injEq .. ▸ heq
  rfl

theorem inner_keys_pairwise_lt (lib : Lib) (e : Nat) (d : List Row) (a : String) :
    (((knownFreqsOf d).filterMap (groupOf lib e d a)).map Prod.fst).Pairwise
      (fun x y : Nat => x < y) := by
  rw [List.pairwise_map, List.pairwise_filterMap]
  refine (knownFreqsOf_pairwise_lt d).imp ?_
  intro x y hxy p hp q hq
  rw [groupOf_key hp, groupOf_key hq]
  exact hxy

theorem mem_subsetOf {d : List Row} {a : String} {f : Nat} {r : Row} :
    r ∈ subsetOf d a f ↔ r ∈ d ∧ r.algo = a ∧ r.freq = Freq.mhz f := by
  unfold subsetOf
  rw [List.mem_filter]
  simp

/-- The workhorse: a non-empty (algorithm, frequency) subset is present in
the result map, with the statistics computed from its energy and time
columns. -/
theorem analyze_lookup (lib : Lib) (e : Nat) (d : List Row) {a : String} {f : Nat}
    (h : subsetOf d a f ≠ []) :
    resultsLookup (analyze lib e d) a f =
      some (groupStats lib e ((subsetOf d a f).map Row.joules)
        ((subsetOf d a f).map Row.time_ms)) := by
  obtain ⟨r, hr⟩ := List.exists_mem_of_ne_nil _ h
  obtain ⟨hrd, hra, hrf⟩ := mem_subsetOf.mp hr
  have ha : a ∈ algosOf d := mem_algosOf.mpr ⟨r, hrd, hra⟩
  have hf : f ∈ knownFreqsOf d := mem_knownFreqsOf.mpr ⟨r, hrd, hrf⟩
  unfold resultsLookup analyze
  rw [find?_map_eq (fun a => (knownFreqsOf d).filterMap (groupOf lib e d a))
    (algosOf d) (algosOf_nodup d) ha]
  rw [Option.some_bind]
  rw [find?_filterMap_eq (groupOf lib e d a) (fun _ _ => groupOf_key)
    (knownFreqsOf d) (knownFreqsOf_nodup d) hf (groupOf_eq_some h)]
  rfl

theorem groupStats_edp_mean (lib : Lib) (e : Nat) (es ts : List ℚ) :
    (groupStats lib e es ts).edp.mean = mean (List.zipWith (fun a b => a * b) es ts) := by
  by_cases h : es.length = 1 <;> simp [groupStats, h]

theorem groupStats_of_len_one (lib : Lib) (e : Nat) {es ts : List ℚ}
    (h : es.length = 1) :
    groupStats lib e es ts =
      { n_samples := 1
        energy := ⟨mean es, none, none, none⟩
        time := ⟨mean ts, none, none, none⟩
        edp := ⟨mean (List.zipWith (fun a b => a * b) es ts), none, none, none⟩
        corr_value := none
        corr_p := none } := by
  simp [groupStats, h]

theorem getLastD_eq_getLast {α : Type*} {l : List α} (h : l ≠ []) (d : α) :
    l.getLastD d = l.getLast h := by
  cases l with
  | nil => exact absurd rfl h
  | cons x t => rw [List.getLastD_cons, ← List.getLast_eq_getLastD]

/-- The specification of `analyze_optimal_frequency_algo` on an association
list with strictly ascending keys (as `analyze` produces): the selected
frequency attains the minimum mean energy, ties go to the smallest
frequency, the reference frequency is the largest key, and the saving
follows the stated formula. -/
theorem opt_algo_spec (fs : List (Nat × GroupStats))
    (hkeys : (fs.map Prod.fst).Pairwise (fun x y : Nat => x < y)) (hne : fs ≠ []) :
    ∃ o, analyze_optimal_frequency_algo fs = some o ∧
      (∃ st, (o.optimal_freq, st) ∈ fs ∧ st.energy.mean = o.min_energy) ∧
      (∀ p ∈ fs, o.min_energy ≤ p.2.energy.mean) ∧
      (∀ p ∈ fs, p.2.energy.mean = o.min_energy → o.optimal_freq ≤ p.1) ∧
      (∃ st, (o.max_freq, st) ∈ fs ∧ st.energy.mean = o.max_freq_energy) ∧
      (∀ p ∈ fs, p.1 ≤ o.max_freq) ∧
      (o.max_freq_energy ≠ 0 →
        o.energy_savings =
          some ((o.max_freq_energy - o.min_energy) / o.max_freq_energy * 100)) := by
  have hnd : (fs.map Prod.fst).Nodup := hkeys.imp fun h => ne_of_lt h
  have hsle : (fs.map Prod.fst).Pairwise (fun a b : Nat => a ≤ b) :=
    hkeys.imp fun h => le_of_lt h
  have hsort : sortedNat (fs.map Prod.fst) = fs.map Prod.fst :=
    List.Sorted.insertionSort_eq hsle
  have hkne : fs.map Prod.fst ≠ [] := by
    intro h0
    exact hne (List.map_eq_nil_iff.mp h0)
  have hkpos : 0 < (fs.map Prod.fst).length := List.length_pos.mpr hkne
  have hfpos : 0 < fs.length := by simpa using hkpos
  have hstats : ∀ {f : Nat} {b : GroupStats}, (f, b) ∈ fs → statsAt fs f = b :=
    fun hm => statsAt_eq hnd hm
  have hmemE : ∀ {p : Nat × GroupStats}, p ∈ fs →
      p.2.energy.mean ∈ (fs.map Prod.fst).map fun f => (statsAt fs f).energy.mean := by
    intro p hp
    rw [List.map_map]
    exact List.mem_map.mpr ⟨p, hp, by
      show (statsAt fs p.1).energy.mean = p.2.energy.mean
      rw [hstats hp]⟩
  simp only [analyze_optimal_frequency_algo, hsort]
  rw [if_neg (by simpa using hkne)]
  set ks := fs.map Prod.fst with hks
  set energies := ks.map fun f => (statsAt fs f).energy.mean with hens
  have hEne : energies ≠ [] := by
    intro h0
    exact hkne (List.map_eq_nil_iff.mp h0)
  have hminmem : listMin energies ∈ energies := listMin_mem hEne
  have hminle : ∀ y ∈ energies, listMin energies ≤ y := listMin_le hEne
  have hex : ∃ x ∈ energies, (x == listMin energies) = true :=
    ⟨listMin energies, hminmem, by simp⟩
  have hidxlt : energies.findIdx (fun e => e == listMin energies) < energies.length :=
    List.findIdx_lt_length_of_exists hex
  set idx := energies.findIdx fun e => e == listMin energies with hidx
  have hlenE : energies.length = ks.length := List.length_map _ _
  have hlenK : ks.length = fs.length := List.length_map _ _
  have hidxK : idx < ks.length := hlenE ▸ hidxlt
  have hidxF : idx < fs.length := hlenK ▸ hidxK
  have hPidx : energies[idx] = listMin energies := by
    have := @List.findIdx_getElem _ (fun e => e == listMin energies) energies hidxlt
    simpa using this
  have hgetD : ks.getD idx 0 = ks[idx] := List.getD_eq_getElem ks 0 hidxK
  have hkidx : ks[idx] = (fs[idx]).1 := by
    simp [hks]
  have hEidx : energies[idx] = (fs[idx]).2.energy.mean := by
    have h1 : energies[idx] = (statsAt fs (ks[idx])).energy.mean :=
      List.getElem_map _
    rw [h1, hkidx]
    exact congrArg (fun st => st.energy.mean) (hstats (List.getElem_mem _))
  have hlast : ks.getLastD 0 = ks[ks.length - 1] := by
    rw [getLastD_eq_getLast hkne, List.getLast_eq_getElem]
  have hlastF : ks.length - 1 < fs.length := by
    have : 0 < ks.length := List.length_pos.mpr hkne
    omega
  refine ⟨_, rfl, ?_, ?_, ?_, ?_, ?_, ?_⟩
  · -- optimal frequency attains the minimum
    refine ⟨(fs[idx]).2, ?_, ?_⟩
    · show (ks.getD idx 0, (fs[idx]).2) ∈ fs
      rw [hgetD, hkidx]
      exact List.getElem_mem _
    · show (fs[idx]).2.energy.mean = listMin energies
      rw [← hEidx, hPidx]
  · -- the minimum is a lower bound
    intro p hp
    exact hminle _ (by simpa [hens, List.map_map] using hmemE hp)
  · -- ties resolved towards the smallest frequency
    intro p hp hpmin
    obtain ⟨j, hj, hfsj⟩ := List.getElem_of_mem hp
    have hjK : j < ks.length := hlenK ▸ hj
    have hjE : j < energies.length := hlenE ▸ hjK
    have hkj : ks[j] = p.1 := by
      simp [hks, hfsj]
    have hEj : energies[j] = p.2.energy.mean := by
      have h1 : energies[j] = (statsAt fs (ks[j])).energy.mean :=
        List.getElem_map _
      rw [h1, hkj]
      exact congrArg (fun st => st.energy.mean) (hstats hp)
    have hjge : idx ≤ j := by
      by_contra hlt
      have hfalse := List.not_of_lt_findIdx (Nat.lt_of_not_le hlt)
      have hfalse' : (energies[j] == listMin energies) = false := hfalse
      rw [hEj] at hfalse'
      rw [show p.2.energy.mean = listMin energies from hpmin] at hfalse'
      simp at hfalse' 
    show ks.getD idx 0 ≤ p.1
    rw [hgetD]
    rcases Nat.eq_or_lt_of_le hjge with rfl | hlt
    · rw [hkidx, hfsj]
    · have := (List.pairwise_iff_getElem.mp hkeys) idx j hidxK hjK hlt
      rw [← hkj]
      exact le_of_lt this
  · -- the reference frequency belongs to the map
    refine ⟨(fs[ks.length - 1]).2, ?_, ?_⟩
    · show (ks.getLastD 0, (fs[ks.length - 1]).2) ∈ fs
      rw [hlast]
      have : ks[ks.length - 1] = (fs[ks.length - 1]).1 := by
        simp [hks]
      rw [this]
      exact List.getElem_mem _
    · show (fs[ks.length - 1]).2.energy.mean
          = (statsAt fs (ks.getLastD 0)).energy.mean
      rw [hlast]
      have h1 : ks.length - 1 < ks.length := by
        have : 0 < ks.length := List.length_pos.mpr hkne
        omega
      have hklast : ks[ks.length - 1] = (fs[ks.length - 1]).1 := by
        simp [hks]
      rw [hklast]
      exact (congrArg (fun st => st.energy.mean) (hstats (List.getElem_mem _))).symm
  · -- the reference frequency is the largest key
    intro p hp
    obtain ⟨j, hj, hfsj⟩ := List.getElem_of_mem hp
    have hjK : j < ks.length := hlenK ▸ hj
    have hkj : ks[j] = p.1 := by
      simp [hks, hfsj]
    show p.1 ≤ ks.getLastD 0
    rw [hlast, ← hkj]
    rcases Nat.lt_or_ge j (ks.length - 1) with hlt | hge
    · exact le_of_lt ((List.pairwise_iff_getElem.mp hkeys) j (ks.length - 1) hjK (by omega) hlt)
    · have : j = ks.length - 1 := by omega
      subst this
      exact le_refl _
  · -- the saving formula when the denominator is non-zero
    intro hnz
    have hnz' : (statsAt fs (ks.getLastD 0)).energy.mean ≠ 0 := hnz
    show (pydiv ((statsAt fs (ks.getLastD 0)).energy.mean - listMin energies)
        ((statsAt fs (ks.getLastD 0)).energy.mean)).map (fun q => q * 100) =
      some (((statsAt fs (ks.getLastD 0)).energy.mean - listMin energies)
        / (statsAt fs (ks.getLastD 0)).energy.mean * 100)
    rw [List.getLastD_eq_getLast?] at hnz'
    simp [pydiv, hnz']

theorem edp_best_worst_singleton (f : Nat) (st : GroupStats) :
    edp_best_worst [(f, st)] =
      some
        { best_freq := f
          best_edp := st.edp.mean
          worst_freq := f
          worst_edp := st.edp.mean
          improvement := (pydiv (st.edp.mean - st.edp.mean) st.edp.mean).map
            fun q => q * 100 } := by
  simp [edp_best_worst, sortedNat, statsAt, minBySnd, maxBySnd]

theorem opt_singleton (f : Nat) (st : GroupStats) :
    analyze_optimal_frequency_algo [(f, st)] =
      some
        { optimal_freq := f
          min_energy := st.energy.mean
          max_freq := f
          max_freq_energy := st.energy.mean
          energy_savings := (pydiv (st.energy.mean - st.energy.mean) st.energy.mean).map
            fun q => q * 100 } := by
  simp [analyze_optimal_frequency_algo, sortedNat, statsAt, listMin, List.findIdx_cons]

/-! ## The claims -/

set_option maxRecDepth 1000000 in
/-- C1: for every non-empty (algorithm, frequency) group, the reported EDP
mean equals the arithmetic mean of the per-row products energy×time, the
rows paired in order; and on the concrete correlated input `c1Rows` it
differs from mean(energy)·mean(time). -/
theorem C1_edp_mean_rowwise (lib : Lib) (e : Nat) (d : List Row) (a : String) (f : Nat)
    (h : subsetOf d a f ≠ []) :
    (∃ st, resultsLookup (analyze lib e d) a f = some st ∧
        st.edp.mean =
          ((subsetOf d a f).map fun r => r.joules * r.time_ms).sum /
            ((subsetOf d a f).length : ℚ)) ∧
    ∃ st, resultsLookup (analyze trivialLib 0 c1Rows) "a" 500 = some st ∧
        st.edp.mean ≠ st.energy.mean * st.time.mean := by
  constructor
  · refine ⟨_, analyze_lookup lib e d h, ?_⟩
    rw [groupStats_edp_mean, zipWith_map_same (fun a b => a * b) Row.joules Row.time_ms]
    simp [mean]
  · refine ⟨groupStats trivialLib 0 [1, 2] [1, 2], ?_, ?_⟩
    · with_unfolding_all decide
    · with_unfolding_all decide

set_option maxRecDepth 1000000 in
/-- C1 witness: the theorem evaluated on the concrete group `c1Rows`. -/
theorem C1_witness :
    (∃ st, resultsLookup (analyze trivialLib 0 c1Rows) "a" 500 = some st ∧
        st.edp.mean =
          ((subsetOf c1Rows "a" 500).map fun r => r.joules * r.time_ms).sum /
            ((subsetOf c1Rows "a" 500).length : ℚ)) ∧
    ∃ st, resultsLookup (analyze trivialLib 0 c1Rows) "a" 500 = some st ∧
        st.edp.mean ≠ st.energy.mean * st.time.mean :=
  C1_edp_mean_rowwise trivialLib 0 c1Rows "a" 500 (by with_unfolding_all decide)

/-- C2: a group with exactly one observation gets `None` for standard
deviation, confidence-interval bounds and correlation (and its p-value),
and the aggregation still produces the group's record. -/
theorem C2_singleton_absent (lib : Lib) (e : Nat) (d : List Row) (a : String) (f : Nat)
    (h : (subsetOf d a f).length = 1) :
    ∃ st, resultsLookup (analyze lib e d) a f = some st ∧
      st.n_samples = 1 ∧
      st.energy.std = none ∧ st.energy.ci_lower = none ∧ st.energy.ci_upper = none ∧
      st.time.std = none ∧ st.time.ci_lower = none ∧ st.time.ci_upper = none ∧
      st.edp.std = none ∧ st.edp.ci_lower = none ∧ st.edp.ci_upper = none ∧
      st.corr_value = none ∧ st.corr_p = none := by
  have hne : subsetOf d a f ≠ [] := by
    intro h0
    rw [h0] at h
    simp at h
  refine ⟨_, analyze_lookup lib e d hne, ?_⟩
  rw [groupStats_of_len_one lib e (by simpa using h)]
  simp

set_option maxRecDepth 1000000 in
/-- C2 witness: the theorem evaluated on the singleton dataset `c2Rows`. -/
theorem C2_witness :
    ∃ st, resultsLookup (analyze trivialLib 0 c2Rows) "a" 500 = some st ∧
      st.n_samples = 1 ∧
      st.energy.std = none ∧ st.energy.ci_lower = none ∧ st.energy.ci_upper = none ∧
      st.time.std = none ∧ st.time.ci_lower = none ∧ st.time.ci_upper = none ∧
      st.edp.std = none ∧ st.edp.ci_lower = none ∧ st.edp.ci_upper = none ∧
      st.corr_value = none ∧ st.corr_p = none :=
  C2_singleton_absent trivialLib 0 c2Rows "a" 500 (by with_unfolding_all decide)

/-- C3: the EDP ranking is a permutation of all (algorithm, frequency)
groups, it is sorted by ascending mean EDP, and the sort is stable: the
entries with any given EDP value appear exactly in their original
enumeration order. -/
theorem C3_ranking_sorted_stable (lib : Lib) (e : Nat) (d : List Row) :
    List.Perm (analyze_energy_efficiency_edp (analyze lib e d))
      (edpRankingInput (analyze lib e d)) ∧
    List.Pairwise rankLE (analyze_energy_efficiency_edp (analyze lib e d)) ∧
    ∀ c : ℚ,
      (analyze_energy_efficiency_edp (analyze lib e d)).filter (fun x => x.edp == c) =
        (edpRankingInput (analyze lib e d)).filter fun x => x.edp == c := by
  refine ⟨List.perm_insertionSort _ _, List.sorted_insertionSort _ _, fun c => ?_⟩
  set l := edpRankingInput (analyze lib e d)
  have hpair : (l.filter fun x => x.edp == c).Pairwise rankLE :=
    pairwise_filter_of
      (fun x y hx hy => by
        have hx' : x.edp = c := by simpa using hx
        have hy' : y.edp = c := by simpa using hy
        show x.edp ≤ y.edp
        rw [hx', hy'])
      l
  have hsub : List.Sublist (l.filter fun x => x.edp == c) (List.insertionSort rankLE l) :=
    List.sublist_insertionSort hpair (List.filter_sublist l)
  have hsub2 : List.Sublist (l.filter fun x => x.edp == c)
      ((List.insertionSort rankLE l).filter fun x => x.edp == c) := by
    have h2 := List.Sublist.filter (fun x => x.edp == c) hsub
    simpa [List.filter_filter] using h2
  have hperm : List.Perm ((List.insertionSort rankLE l).filter fun x => x.edp == c)
      (l.filter fun x => x.edp == c) :=
    (List.perm_insertionSort rankLE l).filter _
  exact (hsub2.eq_of_length hperm.length_eq.symm).symm

/-- C4: per algorithm, the optimal-frequency selection picks a frequency
attaining the minimum mean energy, resolves ties towards the smallest
frequency, reports the saving as
(energy at max frequency − min energy) / energy at max frequency × 100,
and the reference frequency is the highest tested one. -/
theorem C4_optimal_frequency (lib : Lib) (e : Nat) (d : List Row) (a : String)
    (fs : List (Nat × GroupStats)) (hmem : (a, fs) ∈ analyze lib e d) (hne : fs ≠ []) :
    ∃ o, analyze_optimal_frequency_algo fs = some o ∧
      (∃ st, (o.optimal_freq, st) ∈ fs ∧ st.energy.mean = o.min_energy) ∧
      (∀ p ∈ fs, o.min_energy ≤ p.2.energy.mean) ∧
      (∀ p ∈ fs, p.2.energy.mean = o.min_energy → o.optimal_freq ≤ p.1) ∧
      (∃ st, (o.max_freq, st) ∈ fs ∧ st.energy.mean = o.max_freq_energy) ∧
      (∀ p ∈ fs, p.1 ≤ o.max_freq) ∧
      (o.max_freq_energy ≠ 0 →
        o.energy_savings =
          some ((o.max_freq_energy - o.min_energy) / o.max_freq_energy * 100)) := by
  have hinner := analyze_inner hmem
  subst hinner
  exact opt_algo_spec _ (inner_keys_pairwise_lt lib e d a) (by simpa using hne)

set_option maxRecDepth 1000000 in
/-- C4 witness: the theorem evaluated on the two-frequency dataset
`c4Rows`. -/
theorem C4_witness :
    ∃ o, analyze_optimal_frequency_algo c4Fs = some o ∧
      (∃ st, (o.optimal_freq, st) ∈ c4Fs ∧ st.energy.mean = o.min_energy) ∧
      (∀ p ∈ c4Fs, o.min_energy ≤ p.2.energy.mean) ∧
      (∀ p ∈ c4Fs, p.2.energy.mean = o.min_energy → o.optimal_freq ≤ p.1) ∧
      (∃ st, (o.max_freq, st) ∈ c4Fs ∧ st.energy.mean = o.max_freq_energy) ∧
      (∀ p ∈ c4Fs, p.1 ≤ o.max_freq) ∧
      (o.max_freq_energy ≠ 0 →
        o.energy_savings =
          some ((o.max_freq_energy - o.min_energy) / o.max_freq_energy * 100)) :=
  C4_optimal_frequency trivialLib 0 c4Rows "a" c4Fs
    (by with_unfolding_all decide) (by with_unfolding_all decide)

/-- C5 (amended): an algorithm tested at exactly one frequency has that
frequency as best = worst and as both the minimum-energy and highest
frequency, and the improvement and saving percentages are 0% provided the
group's mean EDP (resp. mean energy) is non-zero; with a zero denominator
the percentages are undefined (NaN) instead, though still without an
error. -/
theorem C5_single_frequency (lib : Lib) (e : Nat) (d : List Row) (a : String)
    (f : Nat) (st : GroupStats) (hmem : (a, [(f, st)]) ∈ analyze lib e d) :
    (∃ bw, edp_best_worst [(f, st)] = some bw ∧
        bw.best_freq = f ∧ bw.worst_freq = f ∧
        bw.best_edp = st.edp.mean ∧ bw.worst_edp = st.edp.mean ∧
        (st.edp.mean ≠ 0 → bw.improvement = some 0)) ∧
    ∃ o, analyze_optimal_frequency_algo [(f, st)] = some o ∧
        o.optimal_freq = f ∧ o.max_freq = f ∧
        o.min_energy = st.energy.mean ∧ o.max_freq_energy = st.energy.mean ∧
        (st.energy.mean ≠ 0 → o.energy_savings = some 0) := by
  constructor
  · refine ⟨_, edp_best_worst_singleton f st, rfl, rfl, rfl, rfl, ?_⟩
    intro hx
    show (pydiv (st.edp.mean - st.edp.mean) st.edp.mean).map (fun q => q * 100) = some 0
    simp [pydiv, hx]
  · refine ⟨_, opt_singleton f st, rfl, rfl, rfl, rfl, ?_⟩
    intro hx
    show (pydiv (st.energy.mean - st.energy.mean) st.energy.mean).map
      (fun q => q * 100) = some 0
    simp [pydiv, hx]

set_option maxRecDepth 1000000 in
/-- C5 counterexample: on the single-frequency group of `c5Rows`, whose
energy readings are all zero, the reported saving and improvement are the
undefined marker (`None`, modelling the float NaN the source computes), not
the claimed 0%. -/
theorem C5_counterexample :
    ("a", [(500, groupStats trivialLib 0 [0] [1])]) ∈ analyze trivialLib 0 c5Rows ∧
    analyze_optimal_frequency_algo [(500, groupStats trivialLib 0 [0] [1])] =
      some { optimal_freq := 500, min_energy := 0, max_freq := 500,
             max_freq_energy := 0, energy_savings := none } ∧
    edp_best_worst [(500, groupStats trivialLib 0 [0] [1])] =
      some { best_freq := 500, best_edp := 0, worst_freq := 500, worst_edp := 0,
             improvement := none } := by
  with_unfolding_all decide

set_option maxRecDepth 1000000 in
/-- C5 witness: the amended theorem evaluated on the positive
single-frequency dataset `c5SingleRows`. -/
theorem C5_witness :
    (∃ bw, edp_best_worst [(500, groupStats trivialLib 0 [1] [2])] = some bw ∧
        bw.best_freq = 500 ∧ bw.worst_freq = 500 ∧
        bw.best_edp = (groupStats trivialLib 0 [1] [2]).edp.mean ∧
        bw.worst_edp = (groupStats trivialLib 0 [1] [2]).edp.mean ∧
        ((groupStats trivialLib 0 [1] [2]).edp.mean ≠ 0 → bw.improvement = some 0)) ∧
    ∃ o, analyze_optimal_frequency_algo [(500, groupStats trivialLib 0 [1] [2])] = some o ∧
        o.optimal_freq = 500 ∧ o.max_freq = 500 ∧
        o.min_energy = (groupStats trivialLib 0 [1] [2]).energy.mean ∧
        o.max_freq_energy = (groupStats trivialLib 0 [1] [2]).energy.mean ∧
        ((groupStats trivialLib 0 [1] [2]).energy.mean ≠ 0 →
          o.energy_savings = some 0) :=
  C5_single_frequency trivialLib 0 c5SingleRows "a" 500
    (groupStats trivialLib 0 [1] [2]) (by with_unfolding_all decide)

/-- C6: the analysis is deterministic.  The `entropy` parameters model the
ambient randomness an unseeded generator would consume; because the source
seeds its bootstrap generator with the literal `42` (and has no other
random source), every stage of both scripts — including the bootstrap
confidence-interval bounds stored in the group statistics — is a pure
function of the input dataset, so two runs agree exactly. -/
theorem C6_deterministic (lib : Lib) (files : List CsvFile) (d : List Row)
    (sd : List SRow) (e₁ e₂ : Nat) :
    main_run lib e₁ files = main_run lib e₂ files ∧
    analyze lib e₁ d = analyze lib e₂ d ∧
    analyze_energy_efficiency_edp (analyze lib e₁ d) =
      analyze_energy_efficiency_edp (analyze lib e₂ d) ∧
    analyze_optimal_frequency (analyze lib e₁ d) =
      analyze_optimal_frequency (analyze lib e₂ d) ∧
    simple_analyze lib e₁ sd = simple_analyze lib e₂ sd :=
  ⟨rfl, rfl, rfl, rfl, rfl⟩

/-- C8: the `freq_mhz` data column takes precedence over the file name,
then the case-insensitive `(\d+)mhz` file-name pattern, then the sentinel;
sentinel rows are in no (algorithm, frequency) subset yet are counted in the
dataset's total record count. -/
theorem C8_frequency_precedence (file : CsvFile) (d : List Row) :
    ("freq_mhz" ∈ file.cols →
      (loadFile file).map Row.freq = file.rows.map fun r => Freq.mhz r.freq_mhz) ∧
    ("freq_mhz" ∉ file.cols → ∀ n, extract_frequency_from_filename file.name = some n →
      (loadFile file).map Row.freq = file.rows.map fun _ => Freq.mhz n) ∧
    ("freq_mhz" ∉ file.cols → extract_frequency_from_filename file.name = none →
      (loadFile file).map Row.freq = file.rows.map fun _ => Freq.unidentified) ∧
    (∀ r ∈ d, r.freq = Freq.unidentified → ∀ a f, r ∉ subsetOf d a f) ∧
    total_records d =
      (d.filter fun r => decide (r.freq ≠ Freq.unidentified)).length +
        (d.filter fun r => decide (r.freq = Freq.unidentified)).length := by
  refine ⟨?_, ?_, ?_, ?_, ?_⟩
  · intro hcol
    simp [loadFile, hcol]
  · intro hcol n hn
    simp [loadFile, hcol, hn, Function.comp_def]
  · intro hcol hn
    simp [loadFile, hcol, hn, Function.comp_def]
  · intro r _ hu a f hmem
    obtain ⟨_, _, hf⟩ := mem_subsetOf.mp hmem
    rw [hu] at hf
    cases hf
  · show d.length = _
    induction d with
    | nil => rfl
    | cons r t ih =>
      by_cases hr : r.freq = Freq.unidentified
      · simp only [List.filter_cons, List.length_cons, ih]
        rw [if_neg (by simp [hr]), if_pos (by simp [hr])]
        simp
        omega
      · simp only [List.filter_cons, List.length_cons, ih]
        rw [if_pos (by simp [hr]), if_neg (by simp [hr])]
        simp
        omega

set_option maxRecDepth 1000000 in
/-- C8 witness: the theorem evaluated on three concrete files — a
`freq_mhz` column overriding a conflicting file name, an upper-case
file-name match, a file with no frequency information — and a sentinel
row. -/
theorem C8_witness :
    ((loadFile c8FileCol).map Row.freq = c8FileCol.rows.map fun r => Freq.mhz r.freq_mhz) ∧
    ((loadFile c8FileName).map Row.freq = c8FileName.rows.map fun _ => Freq.mhz 1500) ∧
    ((loadFile c8FileNone).map Row.freq = c8FileNone.rows.map fun _ => Freq.unidentified) ∧
    (⟨"b", 1, 1, Freq.unidentified, "s"⟩ : Row) ∉
      subsetOf [⟨"b", 1, 1, Freq.unidentified, "s"⟩] "b" 500 :=
  ⟨(C8_frequency_precedence c8FileCol []).1 (by decide),
   (C8_frequency_precedence c8FileName []).2.1 (by decide) 1500
     (by with_unfolding_all decide),
   (C8_frequency_precedence c8FileNone []).2.2.1 (by decide)
     (by with_unfolding_all decide),
   (C8_frequency_precedence c8FileCol [⟨"b", 1, 1, Freq.unidentified, "s"⟩]).2.2.2.1
     _ (by simp) rfl "b" 500⟩

/-- C9 (amended): loading fails with a data-validation error whenever a
required column (`algo`, `joules`, `time_ms`) is missing from the loaded
dataset, and then the whole run aborts with no outputs produced; an empty
dataset whose required columns are present, however, passes loading and the
aggregation simply yields an empty result map. -/
theorem C9_missing_column_fails (lib : Lib) (e : Nat) (files : List CsvFile) (c : String)
    (hne : files ≠ []) (hc : c ∈ requiredColumns)
    (hmiss : c ∉ combinedCols (sortedFiles files)) :
    (∃ msg, load_data files = Except.error msg ∧
        main_run lib e files = Except.error msg) ∧
    load_data [c9EmptyFile] =
      Except.ok (["algo", "joules", "time_ms", "source_file", "cpu_frequency_mhz"], []) ∧
    analyze lib e [] = [] := by
  refine ⟨?_, by with_unfolding_all decide, rfl⟩
  have herr : ∃ msg, load_data files = Except.error msg := by
    unfold load_data
    rw [if_neg (by simpa using hne)]
    by_cases halgo : "algo" ∈ combinedCols (sortedFiles files)
    · rw [if_pos halgo]
      have hxmem : c ∈ requiredColumns.filter
          (fun c' => !((combinedCols (sortedFiles files)).contains c')) := by
        rw [List.mem_filter]
        exact ⟨hc, by simp [hmiss]⟩
      rw [if_neg ?_]
      · exact ⟨_, rfl⟩
      · intro hemp
        rw [List.isEmpty_iff] at hemp
        exact List.ne_nil_of_mem hxmem hemp
    · rw [if_neg halgo]
      exact ⟨_, rfl⟩
  obtain ⟨msg, hmsg⟩ := herr
  refine ⟨msg, hmsg, ?_⟩
  unfold main_run
  rw [hmsg]
  rfl

set_option maxRecDepth 1000000 in
/-- C9 counterexample: a dataset that is empty (zero observations) but has
all required columns is not rejected: loading succeeds and the aggregation
completes, returning an empty result map instead of failing with a
data-validation error. -/
theorem C9_counterexample :
    load_data [c9EmptyFile] =
      Except.ok (["algo", "joules", "time_ms", "source_file", "cpu_frequency_mhz"], []) ∧
    analyze trivialLib 0 [] = [] := by
  refine ⟨by with_unfolding_all decide, rfl⟩

set_option maxRecDepth 1000000 in
/-- C9 witness: the amended theorem evaluated on a file missing the
`joules` column. -/
theorem C9_witness :
    (∃ msg, load_data [c9BadFile] = Except.error msg ∧
        main_run trivialLib 0 [c9BadFile] = Except.error msg) ∧
    load_data [c9EmptyFile] =
      Except.ok (["algo", "joules", "time_ms", "source_file", "cpu_frequency_mhz"], []) ∧
    analyze trivialLib 0 [] = [] :=
  C9_missing_column_fails trivialLib 0 [c9BadFile] "joules" (by decide) (by decide)
    (by with_unfolding_all decide)

set_option maxRecDepth 1000000 in
/-- C10: the improvement and saving percentages are divisions with no
guard; whenever the worst mean EDP and the mean energy at the highest
frequency are strictly positive the division by zero is unreachable and the
percentages are defined, while on the all-zero-energy input `c10Rows` both
denominators are zero and the percentages are undefined. -/
theorem C10_division_guard (fs : List (Nat × GroupStats)) (bw : BestWorst) (o : OptEntry)
    (h1 : edp_best_worst fs = some bw) (h2 : 0 < bw.worst_edp)
    (h3 : analyze_optimal_frequency_algo fs = some o) (h4 : 0 < o.max_freq_energy) :
    bw.improvement.isSome ∧ o.energy_savings.isSome ∧
    ∃ fs₀ bw₀ o₀, ("a", fs₀) ∈ analyze trivialLib 0 c10Rows ∧
      edp_best_worst fs₀ = some bw₀ ∧ bw₀.worst_edp = 0 ∧ bw₀.improvement = none ∧
      analyze_optimal_frequency_algo fs₀ = some o₀ ∧ o₀.max_freq_energy = 0 ∧
      o₀.energy_savings = none := by
  refine ⟨?_, ?_, ?_⟩
  · simp only [edp_best_worst] at h1
    split at h1
    · cases h1
    · cases h1
      exact pydiv_map_isSome _ h2.ne'
  · simp only [analyze_optimal_frequency_algo] at h3
    split at h3
    · cases h3
    · cases h3
      exact pydiv_map_isSome _ h4.ne' 
  · refine ⟨c10Fs,
      { best_freq := 500, best_edp := 0, worst_freq := 500, worst_edp := 0,
        improvement := none },
      { optimal_freq := 500, min_energy := 0, max_freq := 1000, max_freq_energy := 0,
        energy_savings := none },
      ?_, ?_, ?_, ?_, ?_, ?_, ?_⟩
    · with_unfolding_all decide
    · with_unfolding_all decide
    · with_unfolding_all decide
    · with_unfolding_all decide
    · with_unfolding_all decide
    · with_unfolding_all decide
    · with_unfolding_all decide

set_option maxRecDepth 1000000 in
/-- C10 witness: the theorem evaluated on the positive singleton group
`c10PosFs`, whose percentages are both defined. -/
theorem C10_witness :
    c10BW.improvement.isSome ∧ c10Opt.energy_savings.isSome ∧
    ∃ fs₀ bw₀ o₀, ("a", fs₀) ∈ analyze trivialLib 0 c10Rows ∧
      edp_best_worst fs₀ = some bw₀ ∧ bw₀.worst_edp = 0 ∧ bw₀.improvement = none ∧
      analyze_optimal_frequency_algo fs₀ = some o₀ ∧ o₀.max_freq_energy = 0 ∧
      o₀.energy_savings = none :=
  C10_division_guard c10PosFs c10BW c10Opt
    (by with_unfolding_all decide) (by with_unfolding_all decide)
    (by with_unfolding_all decide) (by with_unfolding_all decide)

end JvmEnergy
